import Mathlib

/-!
# Verification of the Registrador de Atividades core

Shallow embedding of the activity-tracker's core logic:

* `GUI_login.py` — credential vault: `hash_password` / `verify_password`
  (PBKDF2 is an external library call, modelled as an explicit function
  parameter shared by both sides; base64 is modelled concretely).
* `handle_db.py` — activity store operations over an in-memory model of
  the `atividades` table; remote-call failures are explicit boolean
  oracles (`true` = the network call succeeds).
* `GUI_principal.py` — the `MainScreen` session state machine, its
  start/stop actions and the periodic auto-finalize checkpoint logic.

Bytes are `Nat` values `< 256`; strings of ASCII characters are lists of
character codes; timestamps are integers (seconds), elapsed
hours are exact rationals; calendar dates are integers (day index).
-/

/-! ## Base64 (as used by `base64.b64encode` / `b64decode` in GUI_login.py) -/

/-- The base64 alphabet: sextet value to ASCII code. -/
def sextetChar (s : Nat) : Nat :=
  if s < 26 then 65 + s
  else if s < 52 then 97 + (s - 26)
  else if s < 62 then 48 + (s - 52)
  else if s = 62 then 43
  else 47

/-- Inverse of the base64 alphabet: ASCII code to sextet value, `none` for
characters outside the alphabet (including the pad character `=` = 61). -/
def sextetVal (c : Nat) : Option Nat :=
  if 65 ≤ c && c ≤ 90 then some (c - 65)
  else if 97 ≤ c && c ≤ 122 then some (26 + (c - 97))
  else if 48 ≤ c && c ≤ 57 then some (52 + (c - 48))
  else if c = 43 then some 62
  else if c = 47 then some 63
  else none

/-- `base64.b64encode`: bytes to ASCII codes, three bytes per four
characters, `=`-padded (ASCII 61). -/
def b64encode : List Nat → List Nat
  | [] => []
  | [b0] => [sextetChar (b0 / 4), sextetChar (b0 % 4 * 16), 61, 61]
  | [b0, b1] =>
      [sextetChar (b0 / 4), sextetChar (b0 % 4 * 16 + b1 / 16),
       sextetChar (b1 % 16 * 4), 61]
  | b0 :: b1 :: b2 :: rest =>
      sextetChar (b0 / 4) :: sextetChar (b0 % 4 * 16 + b1 / 16) ::
      sextetChar (b1 % 16 * 4 + b2 / 64) :: sextetChar (b2 % 64) ::
      b64encode rest

/-- Decode one final base64 quadruple, which may carry `=` padding. -/
def decodeGroup (a b c d : Nat) : Option (List Nat) :=
  match sextetVal a, sextetVal b with
  | some x, some y =>
    if c = 61 then
      if d = 61 then some [x * 4 + y / 16] else none
    else
      match sextetVal c with
      | some z =>
        if d = 61 then some [x * 4 + y / 16, y % 16 * 16 + z / 4]
        else
          match sextetVal d with
          | some w => some [x * 4 + y / 16, y % 16 * 16 + z / 4, z % 4 * 64 + w]
          | none => none
      | none => none
  | _, _ => none

/-- `base64.b64decode`: fails (`none`) on characters outside the alphabet,
misplaced padding or a length that is not a multiple of four. -/
def b64decode : List Nat → Option (List Nat)
  | [] => some []
  | [a, b, c, d] => decodeGroup a b c d
  | a :: b :: c :: d :: e :: rest =>
      match sextetVal a, sextetVal b, sextetVal c, sextetVal d,
            b64decode (e :: rest) with
      | some x, some y, some z, some w, some tail =>
          some ((x * 4 + y / 16) :: (y % 16 * 16 + z / 4) :: (z % 4 * 64 + w) :: tail)
      | _, _, _, _, _ => none
  | _ => none

/-! ## Credential vault (GUI_login.py) -/

/-- The record returned by `hash_password`: base64 salt, base64 derived key
and the iteration count, as stored in `users.json`. -/
structure HashRecord where
  salt : List Nat
  hash : List Nat
  iters : Nat
deriving DecidableEq

/-- `hash_password(password, salt, iterations)`.  `pbkdf2` stands for the
library call `hashlib.pbkdf2_hmac(sha256, password, salt, iterations)`; it
is the same function on the hashing and the verifying side. -/
def hash_password (pbkdf2 : List Nat → List Nat → Nat → List Nat)
    (password salt : List Nat) (iterations : Nat) : HashRecord :=
  { salt := b64encode salt
    hash := b64encode (pbkdf2 password salt iterations)
    iters := iterations }

/-- `secrets.compare_digest`: constant-time byte comparison; its value is
plain equality. -/
def compare_digest (a b : List Nat) : Bool := a == b

/-- `verify_password(password, salt_b64, hash_b64, iterations)`.  The two
`b64decode` calls can raise in Python; that is the `Except.error` case. -/
def verify_password (pbkdf2 : List Nat → List Nat → Nat → List Nat)
    (password : List Nat) (salt_b64 hash_b64 : List Nat)
    (iterations : Nat) : Except Unit Bool :=
  match b64decode salt_b64 with
  | none => .error ()
  | some salt =>
    match b64decode hash_b64 with
    | none => .error ()
    | some expected =>
        .ok (compare_digest (pbkdf2 password salt iterations) expected)

/-- The verification step of `LoginScreen.fazer_login`: `verify_password`
wrapped in `try/except`, any exception giving `ok = False`. -/
def verify_checked (pbkdf2 : List Nat → List Nat → Nat → List Nat)
    (password : List Nat) (salt_b64 hash_b64 : List Nat)
    (iterations : Nat) : Bool :=
  match verify_password pbkdf2 password salt_b64 hash_b64 iterations with
  | .ok b => b
  | .error _ => false

/-- A concrete stand-in for the PBKDF2 library call, used to evaluate the
credential theorems on concrete inputs (any function with byte-valued
output works). -/
def pbkdf2Demo (password salt : List Nat) (iterations : Nat) : List Nat :=
  [(password.foldl (· + ·) 0 + salt.foldl (· + ·) 0 + iterations) % 256]

/-! ## Time and rounding (handle_db.py) -/

/-- Python `round` to zero decimal places on an exact value: round half to
even ("banker's rounding"). -/
def roundHalfEven (q : ℚ) : ℤ :=
  let n : ℤ := ⌊q⌋
  if q - n < 1 / 2 then n
  else if 1 / 2 < q - n then n + 1
  else if n % 2 = 0 then n else n + 1

/-- `round(x, 10)`: round to ten decimal places. -/
def round10 (q : ℚ) : ℚ := (roundHalfEven (q * 10 ^ 10) : ℚ) / 10 ^ 10

/-- `calcular_horas_trabalhadas(inicio, fim)` (handle_db.py): `None` when
`fim` is absent, otherwise the delta in hours rounded to ten decimal
places.  Timestamps are integer seconds. -/
def calcular_horas_trabalhadas (inicio : ℤ) (fim : Option ℤ) : Option ℚ :=
  match fim with
  | none => none
  | some f => some (round10 (((f - inicio : ℤ) : ℚ) / 3600))

/-! ## The activity store (the `atividades` table) -/

/-- One row of the `atividades` table.  The date-derived columns
`ano`/`mes`/`dia` are projections of `inicio` and are not used by any
modelled operation, so they are not carried. -/
structure Sessao where
  id : Nat
  tipo : String
  descricao : String
  user_id : String
  inicio : ℤ
  fim : Option ℤ
  horas_trabalhadas : Option ℚ
deriving DecidableEq

/-- The remote store: the table rows plus the next `bigserial` id. -/
structure Store where
  rows : List Sessao
  nextId : Nat
deriving DecidableEq

/-- `iniciar_nova_atividade(tipo, descricao, user_id)`: inserts a row with
`fim` and `horas_trabalhadas` absent and returns the new id.  `insertOk`
is the outcome of the remote insert call; on failure the function raises
(`Except.error`) and the store is untouched. -/
def iniciar_nova_atividade (st : Store) (tipo descricao user_id : String)
    (now : ℤ) (insertOk : Bool) : Except Unit (Store × Nat) :=
  if insertOk then
    let row : Sessao :=
      { id := st.nextId, tipo := tipo, descricao := descricao,
        user_id := user_id, inicio := now, fim := none,
        horas_trabalhadas := none }
    .ok ({ rows := st.rows ++ [row], nextId := st.nextId + 1 }, st.nextId)
  else .error ()

/-- The row update performed by `finalizar_atividade`'s `update ... eq id`
call: every row with the given id gets `fim := now` and the given hours. -/
def closeRow (activity_id : Nat) (now : ℤ) (horas : Option ℚ) (r : Sessao) :
    Sessao :=
  if r.id = activity_id then { r with fim := some now, horas_trabalhadas := horas }
  else r

/-- `finalizar_atividade(activity_id)`: selects `inicio` of the first row
with that id (raising if the select fails or no row matches), computes the
hours from it and the current time, and updates `fim`/`horas_trabalhadas`
on every row with that id (raising if the update call fails).  There is no
check that `fim` was absent. -/
def finalizar_atividade (st : Store) (activity_id : Nat) (now : ℤ)
    (selectOk updateOk : Bool) : Except Unit Store :=
  if selectOk then
    match st.rows.find? (fun r => r.id = activity_id) with
    | none => .error ()
    | some r0 =>
      if updateOk then
        let horas := calcular_horas_trabalhadas r0.inicio (some now)
        .ok { st with rows := st.rows.map (closeRow activity_id now horas) }
      else .error ()
  else .error ()

/-- Insert into a list sorted by id descending (larger ids first). -/
def insertDescById (r : Sessao) : List Sessao → List Sessao
  | [] => [r]
  | x :: xs => if x.id ≤ r.id then r :: x :: xs else x :: insertDescById r xs

/-- `order("id", desc=True)`: sort rows by id descending. -/
def sortDescById (l : List Sessao) : List Sessao :=
  l.foldr insertDescById []

/-- `buscar_atividade_em_andamento(user_id)`: among the rows with `fim`
null (filtered by `user_id` when given), order by id descending and take
the first; `none` when there is no such row.  `selectOk` is the remote
call outcome. -/
def buscar_atividade_em_andamento (st : Store) (user_id : Option String)
    (selectOk : Bool) : Except Unit (Option Sessao) :=
  if selectOk then
    let abertas := st.rows.filter (fun r =>
      r.fim.isNone && (match user_id with
                       | none => true
                       | some u => r.user_id == u))
    .ok (sortDescById abertas).head?
  else .error ()

/-- The per-id loop of `finalizar_atividades_em_andamento`: try
`finalizar_atividade` on each id, counting successes and continuing past
failures.  `closeFails i` makes the close call for id `i` raise. -/
def sweepLoop (now : ℤ) (closeFails : Nat → Bool) :
    Store → Nat → List Nat → Store × Nat
  | st, acc, [] => (st, acc)
  | st, acc, i :: rest =>
    match finalizar_atividade st i now (!closeFails i) true with
    | .error _ => sweepLoop now closeFails st acc rest
    | .ok st' => sweepLoop now closeFails st' (acc + 1) rest

/-- `finalizar_atividades_em_andamento()`: select the ids of every row
with `fim` null (no user filter), close each in turn, return the number
closed successfully.  Returns 0 when the client cannot be created or the
initial select fails. -/
def finalizar_atividades_em_andamento (st : Store) (now : ℤ)
    (clientOk selectOk : Bool) (closeFails : Nat → Bool) : Store × Nat :=
  if clientOk then
    if selectOk then
      let ids := (st.rows.filter (fun r => r.fim.isNone)).map (fun r => r.id)
      sweepLoop now closeFails st 0 ids
    else (st, 0)
  else (st, 0)

/-! ## MainScreen (GUI_principal.py) -/

/-- The in-memory state of one `MainScreen` instance: the current-session
reference, the selection, the presentation state touched by the modelled
actions, the per-checkpoint dedup dates (the dict
`_auto_finalize_last_date`, whose keys are fixed to "11:28" and "16:10"),
and a ghost log `created` of the ids this instance created (used to state
the one-open-session invariant).  Per-widget disabled flags of the
activity buttons are not carried. -/
structure MainScreen where
  current_activity_id : Option Nat
  selected_activity_type : Option String
  selected_button : Option String
  selected_activity_label : String
  descricao_text : String
  status_label : String
  active_box_text : Option String
  start_disabled : Bool
  end_disabled : Bool
  descricao_disabled : Bool
  lastFired1128 : Option Int
  lastFired1610 : Option Int
  created : List Nat
deriving DecidableEq

/-- The state set by `MainScreen.__init__` (UI widget text comes from the
KV layout and is irrelevant to the claims; controls start enabled). -/
def MainScreen.init : MainScreen :=
  { current_activity_id := none
    selected_activity_type := none
    selected_button := none
    selected_activity_label := "Nenhuma atividade selecionada"
    descricao_text := ""
    status_label := ""
    active_box_text := none
    start_disabled := false
    end_disabled := false
    descricao_disabled := false
    lastFired1128 := none
    lastFired1610 := none
    created := [] }

/-- `self._auto_finalize_last_date.get(hhmm)` (`None` for other keys). -/
def lastDateGet (scr : MainScreen) (hhmm : String) : Option Int :=
  if hhmm = "11:28" then scr.lastFired1128
  else if hhmm = "16:10" then scr.lastFired1610
  else none

/-- `self._auto_finalize_last_date[hhmm] = today`; only ever called with
`hhmm` one of the two fixed keys. -/
def lastDateSet (scr : MainScreen) (hhmm : String) (today : Int) : MainScreen :=
  if hhmm = "11:28" then { scr with lastFired1128 := some today }
  else if hhmm = "16:10" then { scr with lastFired1610 := some today }
  else scr

/-- `_set_state_em_andamento(em_andamento)`: toggles the enabled state of
the start/end buttons and the description field. -/
def set_state_em_andamento (scr : MainScreen) (em_andamento : Bool) : MainScreen :=
  { scr with start_disabled := em_andamento
             end_disabled := !em_andamento
             descricao_disabled := em_andamento }

/-- `_show_active_box`: show the active-activity box with its text, or
hide it. -/
def show_active_box (scr : MainScreen) (tipo : Option String) : MainScreen :=
  match tipo with
  | some t => { scr with active_box_text := some ("Atividade em andamento: " ++ t) }
  | none => { scr with active_box_text := none }

/-- The outcome of a `MainScreen` action: the new screen state, the new
store, and the popups raised (`show_error` / `show_success`). -/
structure ActionResult where
  scr : MainScreen
  store : Store
  error : Option String
  success : Option String
deriving DecidableEq

/-- `MainScreen.acao_iniciar`.  The guard is Python's
`if not self.selected_activity_type` (both `None` and the empty string are
falsy); there is no guard on `current_activity_id`.  On a store error the
exception is caught, an error popup is shown and no state was assigned. -/
def acao_iniciar (scr : MainScreen) (st : Store) (user : String) (now : ℤ)
    (insertOk : Bool) : ActionResult :=
  match scr.selected_activity_type with
  | none =>
      { scr := scr, store := st,
        error := some "Por favor, selecione um tipo de atividade.",
        success := none }
  | some tipo =>
    if tipo = "" then
      { scr := scr, store := st,
        error := some "Por favor, selecione um tipo de atividade.",
        success := none }
    else
      match iniciar_nova_atividade st tipo scr.descricao_text user now insertOk with
      | .error _ =>
          { scr := scr, store := st,
            error := some "Falha ao iniciar atividade", success := none }
      | .ok (st', newId) =>
          let scr :=
            { scr with current_activity_id := some newId
                       status_label := "Em andamento: " ++ tipo
                       created := scr.created ++ [newId] }
          let scr := show_active_box scr (some tipo)
          let scr := set_state_em_andamento scr true
          { scr := scr, store := st', error := none, success := none }

/-- The local state reset shared by `acao_finalizar`'s success branch and
`_on_auto_finalized_success`: clear the current id, the selection, the
labels and the active box, and re-enable the start controls. -/
def resetAfterFinalize (scr : MainScreen) : MainScreen :=
  let scr :=
    { scr with current_activity_id := none
               selected_button := none
               selected_activity_type := none
               selected_activity_label := "Nenhuma atividade selecionada"
               descricao_text := ""
               status_label := "Pronto para começar." }
  let scr := show_active_box scr none
  set_state_em_andamento scr false

/-- `MainScreen.acao_finalizar`.  The guard is Python's
`if not self.current_activity_id` (`None` and `0` are falsy).  On a store
error an error popup is shown and the local state is kept (the id
remains, so the user may retry). -/
def acao_finalizar (scr : MainScreen) (st : Store) (now : ℤ)
    (selectOk updateOk : Bool) : ActionResult :=
  match scr.current_activity_id with
  | none =>
      { scr := scr, store := st,
        error := some "Não há atividade em andamento para finalizar.",
        success := none }
  | some i =>
    if i = 0 then
      { scr := scr, store := st,
        error := some "Não há atividade em andamento para finalizar.",
        success := none }
    else
      match finalizar_atividade st i now selectOk updateOk with
      | .error _ =>
          { scr := scr, store := st,
            error := some "Falha ao finalizar atividade", success := none }
      | .ok st' =>
          { scr := resetAfterFinalize scr, store := st', error := none,
            success := some "Atividade finalizada com sucesso." }

/-- The outcome of one scheduler tick: new state, whether a finalization
worker was dispatched, and any popup raised by the worker. -/
structure TickResult where
  scr : MainScreen
  store : Store
  dispatched : Bool
  error : Option String
  success : Option String
deriving DecidableEq

/-- `MainScreen._auto_finalize_check`, one tick at wall-clock minute
`hhmm` on date `today`.  On a matching checkpoint whose dedup date is not
today, the dedup date is written first, unconditionally; then, if a
current activity exists, the finalization worker runs
(`finalizar_atividade` followed on success by
`_on_auto_finalized_success`, i.e. `resetAfterFinalize`). -/
def auto_finalize_check (scr : MainScreen) (st : Store) (hhmm : String)
    (today : Int) (now : ℤ) (selectOk updateOk : Bool) : TickResult :=
  if (hhmm = "11:28" ∨ hhmm = "16:10") ∧ lastDateGet scr hhmm ≠ some today then
    let scr := lastDateSet scr hhmm today
    match scr.current_activity_id with
    | none =>
        { scr := scr, store := st, dispatched := false, error := none,
          success := none }
    | some i =>
      if i = 0 then
        { scr := scr, store := st, dispatched := false, error := none,
          success := none }
      else
        match finalizar_atividade st i now selectOk updateOk with
        | .error _ =>
            { scr := scr, store := st, dispatched := true,
              error := some "Falha ao finalizar automaticamente",
              success := none }
        | .ok st' =>
            { scr := resetAfterFinalize scr, store := st', dispatched := true,
              error := none,
              success := some "Atividade finalizada automaticamente." }
  else
    { scr := scr, store := st, dispatched := false, error := none,
      success := none }

/-- `on_activity_toggled` with state `down`: record the selection. -/
def select_activity (scr : MainScreen) (t : String) : MainScreen :=
  { scr with selected_button := some t
             selected_activity_type := some t
             selected_activity_label := "Selecionado: " ++ t }

/-! ## Operation sequences against one MainScreen instance -/

/-- One user- or scheduler-driven operation, with the failure oracles of
the store calls it makes. -/
inductive Op where
  | select (t : String)
  | start (insertOk : Bool) (now : ℤ)
  | stop (selectOk updateOk : Bool) (now : ℤ)
  | tick (hhmm : String) (today : Int) (now : ℤ) (selectOk updateOk : Bool)
deriving DecidableEq

/-- Run one operation on a screen/store pair. -/
def execOp (user : String) (s : MainScreen × Store) (op : Op) :
    MainScreen × Store :=
  match op with
  | .select t => (select_activity s.1 t, s.2)
  | .start ok now =>
      let r := acao_iniciar s.1 s.2 user now ok
      (r.scr, r.store)
  | .stop so uo now =>
      let r := acao_finalizar s.1 s.2 now so uo
      (r.scr, r.store)
  | .tick hhmm today now so uo =>
      let r := auto_finalize_check s.1 s.2 hhmm today now so uo
      (r.scr, r.store)

/-- Run a sequence of operations. -/
def execOps (user : String) (s : MainScreen × Store) (ops : List Op) :
    MainScreen × Store :=
  ops.foldl (execOp user) s

/-- A sequence is UI-gated when every `start` operation happens while the
start button is enabled — which is how the running interface dispatches
`acao_iniciar`, since `_set_state_em_andamento` disables the button while
an activity is in progress. -/
def gatedOps (user : String) : MainScreen × Store → List Op → Bool
  | _, [] => true
  | s, op :: ops =>
    (match op with
     | Op.start _ _ => !s.1.start_disabled
     | _ => true) && gatedOps user (execOp user s op) ops

/-- The sessions created by this instance that are still open. -/
def createdOpen (s : MainScreen × Store) : List Sessao :=
  s.2.rows.filter (fun r => s.1.created.contains r.id && r.fim.isNone)

/-- Store well-formedness: row ids are distinct and below `nextId`
(bigserial keys). -/
def StoreWf (st : Store) : Prop :=
  (st.rows.map (fun r => r.id)).Nodup ∧ ∀ r ∈ st.rows, r.id < st.nextId

/-- The reachable-state invariant behind the one-open-session property:
every open session created by this instance is the current one, and while
it is open the start control stays disabled. -/
def ScreenInv (s : MainScreen × Store) : Prop :=
  StoreWf s.2 ∧
  ∀ r ∈ s.2.rows, r.id ∈ s.1.created → r.fim = none →
    s.1.current_activity_id = some r.id ∧ s.1.start_disabled = true

/-! ## Concrete states used by witnesses and counterexamples -/

/-- A store with one session already closed: id 1, started at 0, ended at
3600 with one hour recorded. -/
def stClosed : Store :=
  { rows := [{ id := 1, tipo := "Documentação", descricao := "",
               user_id := "u", inicio := 0, fim := some 3600,
               horas_trabalhadas := some 1 }],
    nextId := 2 }

/-- Two open sessions, ids 10 and 11, left open for the same owner. -/
def stTwoOpen : Store :=
  { rows := [{ id := 10, tipo := "Cadastro", descricao := "", user_id := "u",
               inicio := 0, fim := none, horas_trabalhadas := none },
             { id := 11, tipo := "Custos", descricao := "", user_id := "u",
               inicio := 5, fim := none, horas_trabalhadas := none }],
    nextId := 12 }

/-- A MainScreen in the running ("Active") state: session id 1 open,
its type selected, start control disabled. -/
def scrActive : MainScreen :=
  { current_activity_id := some 1
    selected_activity_type := some "Documentação"
    selected_button := some "Documentação"
    selected_activity_label := "Selecionado: Documentação"
    descricao_text := ""
    status_label := "Em andamento: Documentação"
    active_box_text := some "Atividade em andamento: Documentação"
    start_disabled := true
    end_disabled := false
    descricao_disabled := true
    lastFired1128 := none
    lastFired1610 := none
    created := [1] }

/-- The store matching `scrActive`: one open session with id 1. -/
def stActive : Store :=
  { rows := [{ id := 1, tipo := "Documentação", descricao := "",
               user_id := "u", inicio := 0, fim := none,
               horas_trabalhadas := none }],
    nextId := 2 }

/-- An empty store, as a fresh instance would see it. -/
def stEmpty : Store := { rows := [], nextId := 1 }

/-- Select a type, then call start twice in a row (as direct method calls,
ignoring the disabled start button). -/
def opsDouble : List Op :=
  [Op.select "Documentação", Op.start true 0, Op.start true 10]

/-- A UI-gated run: select, start, stop. -/
def opsGated : List Op :=
  [Op.select "Documentação", Op.start true 0, Op.stop true true 9000]

/-! # Theorems -/

/-! ## Base64 round-trip -/

theorem sextetVal_sextetChar : ∀ s, s < 64 → sextetVal (sextetChar s) = some s := by
  decide

theorem sextetChar_ne_61 : ∀ s, s < 64 → sextetChar s ≠ 61 := by
  decide

theorem b64encode_ne_nil (bs : List Nat) (h : bs ≠ []) :
    ∃ u v, b64encode bs = u :: v := by
  match bs with
  | [] => exact absurd rfl h
  | [b0] => exact ⟨_, _, rfl⟩
  | [b0, b1] => exact ⟨_, _, rfl⟩
  | b0 :: b1 :: b2 :: rest => exact ⟨_, _, rfl⟩

theorem b64_roundtrip : ∀ bs : List Nat, (∀ b ∈ bs, b < 256) →
    b64decode (b64encode bs) = some bs := by
  intro bs
  induction bs using b64encode.induct with
  | case1 => intro _; rfl
  | case2 b0 =>
    intro hb
    have h0 : b0 < 256 := hb b0 (by simp)
    have e1 : b0 / 4 < 64 := by omega
    have e2 : b0 % 4 * 16 < 64 := by omega
    simp only [b64encode, b64decode, decodeGroup,
      sextetVal_sextetChar _ e1, sextetVal_sextetChar _ e2]
    refine congrArg some ?_
    simp only [List.cons.injEq, and_true]
    omega
  | case3 b0 b1 =>
    intro hb
    have h0 : b0 < 256 := hb b0 (by simp)
    have h1 : b1 < 256 := hb b1 (by simp)
    have e1 : b0 / 4 < 64 := by omega
    have e2 : b0 % 4 * 16 + b1 / 16 < 64 := by omega
    have e3 : b1 % 16 * 4 < 64 := by omega
    simp only [b64encode, b64decode, decodeGroup,
      sextetVal_sextetChar _ e1, sextetVal_sextetChar _ e2,
      sextetVal_sextetChar _ e3,
      if_neg (sextetChar_ne_61 _ e3)]
    refine congrArg some ?_
    simp only [List.cons.injEq, and_true]
    omega
  | case4 b0 b1 b2 rest ih =>
    intro hb
    have h0 : b0 < 256 := hb b0 (by simp)
    have h1 : b1 < 256 := hb b1 (by simp)
    have h2 : b2 < 256 := hb b2 (by simp)
    have e1 : b0 / 4 < 64 := by omega
    have e2 : b0 % 4 * 16 + b1 / 16 < 64 := by omega
    have e3 : b1 % 16 * 4 + b2 / 64 < 64 := by omega
    have e4 : b2 % 64 < 64 := by omega
    have ihr := ih (fun b hbmem => hb b (by simp [hbmem]))
    by_cases hrest : rest = []
    · subst hrest
      simp only [b64encode, b64decode, decodeGroup,
        sextetVal_sextetChar _ e1, sextetVal_sextetChar _ e2,
        sextetVal_sextetChar _ e3, sextetVal_sextetChar _ e4,
        if_neg (sextetChar_ne_61 _ e3), if_neg (sextetChar_ne_61 _ e4)]
      refine congrArg some ?_
      simp only [List.cons.injEq, and_true]
      omega
    · obtain ⟨u, v, huv⟩ := b64encode_ne_nil rest hrest
      rw [huv] at ihr
      simp only [b64encode, huv, b64decode,
        sextetVal_sextetChar _ e1, sextetVal_sextetChar _ e2,
        sextetVal_sextetChar _ e3, sextetVal_sextetChar _ e4, ihr]
      refine congrArg some ?_
      simp only [List.cons.injEq, and_true]
      omega

/-! ## Claims C7 and C8: the credential vault -/

/-- C7: for every password `p` and iteration count `n` (and any salt and
any derived-key function), verifying `p` against the record produced by
hashing `p` with `n` iterations — `verify_password` applied to
`hash_password`'s salt, hash and iters — returns true. -/
theorem verify_password_of_hash_password
    (pbkdf2 : List Nat → List Nat → Nat → List Nat)
    (p salt : List Nat) (n : Nat)
    (hsalt : ∀ b ∈ salt, b < 256)
    (hkey : ∀ b ∈ pbkdf2 p salt n, b < 256) :
    verify_password pbkdf2 p (hash_password pbkdf2 p salt n).salt
      (hash_password pbkdf2 p salt n).hash
      (hash_password pbkdf2 p salt n).iters = .ok true := by
  simp only [hash_password, verify_password, b64_roundtrip salt hsalt,
    b64_roundtrip _ hkey, compare_digest]
  simp

theorem verify_password_of_hash_password_witness :
    verify_password pbkdf2Demo [104, 105]
      (hash_password pbkdf2Demo [104, 105] [1, 2] 3).salt
      (hash_password pbkdf2Demo [104, 105] [1, 2] 3).hash
      (hash_password pbkdf2Demo [104, 105] [1, 2] 3).iters = .ok true :=
  verify_password_of_hash_password pbkdf2Demo [104, 105] [1, 2] 3
    (by decide) (by decide)

/-- C8: for every password and every malformed credential record (a salt
or hash that does not base64-decode), the verification step of
`fazer_login` — `verify_password` under the caller's `try/except` —
returns `false`; `verify_checked` is a total function, so no exception
reaches the caller. -/
theorem verify_checked_malformed
    (pbkdf2 : List Nat → List Nat → Nat → List Nat)
    (p salt_b64 hash_b64 : List Nat) (iters : Nat)
    (h : b64decode salt_b64 = none ∨ b64decode hash_b64 = none) :
    verify_checked pbkdf2 p salt_b64 hash_b64 iters = false := by
  rcases h with h | h
  · simp [verify_checked, verify_password, h]
  · cases hs : b64decode salt_b64 with
    | none => simp [verify_checked, verify_password, hs]
    | some s => simp [verify_checked, verify_password, hs, h]

theorem verify_checked_malformed_witness :
    verify_checked pbkdf2Demo [104] [33] [65] 200000 = false :=
  verify_checked_malformed pbkdf2Demo [104] [33] [65] 200000 (by decide)

/-! ## Rounding lemmas -/

theorem roundHalfEven_nonneg (q : ℚ) (h : 0 ≤ q) : 0 ≤ roundHalfEven q := by
  have h1 : (0:ℤ) ≤ ⌊q⌋ := Int.floor_nonneg.mpr h
  simp only [roundHalfEven]
  split
  · exact h1
  · split
    · omega
    · split <;> omega

theorem roundHalfEven_close (q : ℚ) : |(roundHalfEven q : ℚ) - q| ≤ 1 / 2 := by
  have hfl : (⌊q⌋ : ℚ) ≤ q := Int.floor_le q
  have hfu : q < ⌊q⌋ + 1 := Int.lt_floor_add_one q
  simp only [roundHalfEven]
  split
  · rename_i h1
    rw [abs_le]
    constructor <;> linarith
  · split
    · rename_i h1 h2
      rw [abs_le]
      push_cast
      constructor <;> linarith
    · rename_i h1 h2
      have he : q - ⌊q⌋ = 1 / 2 := le_antisymm (not_lt.mp h2) (not_lt.mp h1)
      split
      · rw [abs_le]
        constructor <;> linarith
      · rw [abs_le]
        push_cast
        constructor <;> linarith

theorem roundHalfEven_intCast (n : ℤ) : roundHalfEven (n : ℚ) = n := by
  simp only [roundHalfEven, Int.floor_intCast, sub_self]
  norm_num

theorem round10_nonneg (q : ℚ) (h : 0 ≤ q) : 0 ≤ round10 q := by
  have h1 : (0:ℤ) ≤ roundHalfEven (q * 10 ^ 10) :=
    roundHalfEven_nonneg _ (by positivity)
  rw [round10]
  have h2 : (0:ℚ) ≤ (roundHalfEven (q * 10 ^ 10) : ℚ) := by exact_mod_cast h1
  positivity

theorem round10_close (q : ℚ) : |round10 q - q| ≤ 1 / (2 * 10 ^ 10) := by
  have h := roundHalfEven_close (q * 10 ^ 10)
  have heq : round10 q - q =
      ((roundHalfEven (q * 10 ^ 10) : ℚ) - q * 10 ^ 10) / 10 ^ 10 := by
    rw [round10]
    ring
  rw [heq, abs_div, abs_of_pos (show (0:ℚ) < 10 ^ 10 by norm_num),
    show (1:ℚ) / (2 * 10 ^ 10) = (1 / 2) / 10 ^ 10 by norm_num]
  gcongr

theorem round10_intCast (n : ℤ) : round10 (n : ℚ) = (n : ℚ) := by
  have h : (n : ℚ) * 10 ^ 10 = ((n * 10 ^ 10 : ℤ) : ℚ) := by push_cast; ring
  rw [round10, h, roundHalfEven_intCast]
  push_cast
  rw [mul_div_assoc]
  norm_num

/-! ## Claim C9: hours-worked computation -/

/-- C9 counterexample: for `inicio = 3600`, `fim = 0` the computation
returns `-1` hours — a negative value, refuting the claim's unconditional
non-negativity over every start and end time. -/
theorem calcular_horas_negative_cex :
    calcular_horas_trabalhadas 3600 (some 0) = some (-1) ∧
    ¬ (0:ℚ) ≤ -1 := by
  constructor
  · show some (round10 (((0 - 3600 : ℤ) : ℚ) / 3600)) = some (-1)
    have h : (((0 - 3600 : ℤ) : ℚ) / 3600) = ((-1 : ℤ) : ℚ) := by norm_num
    rw [h, round10_intCast]
    norm_num
  · norm_num

/-- C9 (amended): `calcular_horas_trabalhadas` returns `none` exactly when
the end time is absent; otherwise it returns the wall-clock delta in
hours rounded to a ten-decimal-place resolution (within half an ulp of
the exact delta), and the result is non-negative whenever the end time is
not before the start time. -/
theorem calcular_horas_correct (inicio f : ℤ) (h : inicio ≤ f) :
    calcular_horas_trabalhadas inicio none = none ∧
    calcular_horas_trabalhadas inicio (some f) =
      some (round10 (((f - inicio : ℤ) : ℚ) / 3600)) ∧
    0 ≤ round10 (((f - inicio : ℤ) : ℚ) / 3600) ∧
    |round10 (((f - inicio : ℤ) : ℚ) / 3600) - ((f - inicio : ℤ) : ℚ) / 3600|
      ≤ 1 / (2 * 10 ^ 10) := by
  refine ⟨rfl, rfl, round10_nonneg _ ?_, round10_close _⟩
  have h0 : (0:ℚ) ≤ ((f - inicio : ℤ) : ℚ) := by
    exact_mod_cast sub_nonneg.mpr h
  positivity

theorem calcular_horas_correct_witness :
    calcular_horas_trabalhadas 0 none = none ∧
    calcular_horas_trabalhadas 0 (some 9000) =
      some (round10 (((9000 - 0 : ℤ) : ℚ) / 3600)) ∧
    0 ≤ round10 (((9000 - 0 : ℤ) : ℚ) / 3600) ∧
    |round10 (((9000 - 0 : ℤ) : ℚ) / 3600) - ((9000 - 0 : ℤ) : ℚ) / 3600|
      ≤ 1 / (2 * 10 ^ 10) :=
  calcular_horas_correct 0 9000 (by decide)

/-! ## Claim C4: closing an already-closed session -/

/-- C4 counterexample: calling `finalizar_atividade` on id 1 of
`stClosed`, whose session already has its end time set, at time 7200
neither errors nor no-ops: it succeeds and the stored end time becomes
7200, overwriting the recorded 3600. -/
theorem finalizar_overwrites_cex :
    (finalizar_atividade stClosed 1 7200 true true).toOption.map
        (fun st => st.rows.map (fun r => r.fim)) = some [some 7200] ∧
    (finalizar_atividade stClosed 1 7200 true true).toOption.map
        (fun st => st.rows.map (fun r => r.fim)) ≠
      some (stClosed.rows.map (fun r => r.fim)) := by
  constructor
  · decide
  · decide

/-- C4 (amended): `finalizar_atividade` does not check whether the
session is already closed: whenever a row with the given id exists and
the store calls succeed, it succeeds and unconditionally overwrites
`fim` with the call time and `horas_trabalhadas` with the hours computed
from the first matching row's `inicio` — on every row carrying that id,
already-closed or not. -/
theorem finalizar_atividade_unconditional (st : Store) (i : Nat) (now : ℤ)
    (r0 : Sessao) (h : st.rows.find? (fun r => r.id = i) = some r0) :
    finalizar_atividade st i now true true =
      .ok { st with rows := (st.rows.map
        (closeRow i now (calcular_horas_trabalhadas r0.inicio (some now)))) } := by
  simp [finalizar_atividade, h]

theorem finalizar_atividade_unconditional_witness :
    finalizar_atividade stClosed 1 7200 true true =
      .ok { stClosed with rows := (stClosed.rows.map
        (closeRow 1 7200 (calcular_horas_trabalhadas
          ({ id := 1, tipo := "Documentação", descricao := "",
             user_id := "u", inicio := 0, fim := some 3600,
             horas_trabalhadas := some 1 } : Sessao).inicio (some 7200)))) } :=
  finalizar_atividade_unconditional stClosed 1 7200 _ (by decide)

/-! ## Claim C10: resume attaches to the newest open session -/

theorem mem_insertDescById (r x : Sessao) (l : List Sessao) :
    x ∈ insertDescById r l ↔ x = r ∨ x ∈ l := by
  induction l with
  | nil => simp [insertDescById]
  | cons a t ih =>
    simp only [insertDescById]
    split
    · simp
    · simp only [List.mem_cons, ih]
      tauto

theorem mem_sortDescById (l : List Sessao) (x : Sessao) :
    x ∈ sortDescById l ↔ x ∈ l := by
  induction l with
  | nil => simp [sortDescById]
  | cons a t ih =>
    simp only [sortDescById, List.foldr_cons] at ih ⊢
    rw [mem_insertDescById, ih, List.mem_cons]

theorem pairwise_insertDescById (r : Sessao) (l : List Sessao)
    (h : l.Pairwise (fun a b => b.id ≤ a.id)) :
    (insertDescById r l).Pairwise (fun a b => b.id ≤ a.id) := by
  induction l with
  | nil => simp [insertDescById]
  | cons a t ih =>
    rw [List.pairwise_cons] at h
    simp only [insertDescById]
    split
    · rename_i hle
      rw [List.pairwise_cons]
      refine ⟨?_, List.pairwise_cons.mpr h⟩
      intro x hx
      rcases List.mem_cons.mp hx with rfl | hxt
      · exact hle
      · exact le_trans (h.1 x hxt) hle
    · rename_i hgt
      rw [List.pairwise_cons]
      refine ⟨?_, ih h.2⟩
      intro x hx
      rcases (mem_insertDescById r x t).mp hx with rfl | hxt
      · omega
      · exact h.1 x hxt

theorem pairwise_sortDescById (l : List Sessao) :
    (sortDescById l).Pairwise (fun a b => b.id ≤ a.id) := by
  induction l with
  | nil => simp [sortDescById]
  | cons a t ih =>
    simp only [sortDescById, List.foldr_cons] at ih ⊢
    exact pairwise_insertDescById a _ ih

/-- C10: when the lookup used on login returns a session, it is an open
session of the given user and carries the greatest id among all open
sessions of that user in the store, so resume always attaches to the
newest open session. -/
theorem buscar_eq_head (st : Store) (uid : String) :
    buscar_atividade_em_andamento st (some uid) true =
      .ok (sortDescById (st.rows.filter (fun r =>
        r.fim.isNone && r.user_id == uid))).head? := rfl

theorem buscar_returns_newest_open (st : Store) (uid : String) (r : Sessao)
    (h : buscar_atividade_em_andamento st (some uid) true = .ok (some r)) :
    r ∈ st.rows ∧ r.fim = none ∧ r.user_id = uid ∧
    ∀ r' ∈ st.rows, r'.fim = none → r'.user_id = uid → r'.id ≤ r.id := by
  rw [buscar_eq_head, Except.ok.injEq] at h
  have hmem : r ∈ sortDescById (st.rows.filter (fun r =>
      r.fim.isNone && r.user_id == uid)) := by
    rcases hs : sortDescById (st.rows.filter (fun r =>
        r.fim.isNone && r.user_id == uid)) with _ | ⟨h0, t⟩
    · rw [hs] at h
      exact absurd h (by simp)
    · rw [hs] at h
      rw [List.head?_cons] at h
      injection h with h2
      rw [← h2]
      simp
  have hfil := (mem_sortDescById _ _).mp hmem
  rw [List.mem_filter] at hfil
  obtain ⟨hrow, hpred⟩ := hfil
  rw [Bool.and_eq_true, Option.isNone_iff_eq_none, beq_iff_eq] at hpred
  refine ⟨hrow, hpred.1, hpred.2, ?_⟩
  intro r' hr' hfim huser
  have hr'mem : r' ∈ sortDescById (st.rows.filter (fun r =>
      r.fim.isNone && r.user_id == uid)) := by
    rw [mem_sortDescById, List.mem_filter]
    exact ⟨hr', by simp [hfim, huser]⟩
  have hp := pairwise_sortDescById (st.rows.filter (fun r =>
      r.fim.isNone && r.user_id == uid))
  rcases hs : sortDescById (st.rows.filter (fun r =>
      r.fim.isNone && r.user_id == uid)) with _ | ⟨h0, t⟩
  · rw [hs] at hmem
    simp at hmem
  · rw [hs] at h hp hr'mem
    rw [List.head?_cons] at h
    rw [Option.some.injEq] at h
    subst h
    rcases List.mem_cons.mp hr'mem with rfl | hrt
    · exact le_refl _
    · exact (List.pairwise_cons.mp hp).1 r' hrt

theorem buscar_returns_newest_open_witness :
    ({ id := 11, tipo := "Custos", descricao := "", user_id := "u",
       inicio := 5, fim := none, horas_trabalhadas := none } : Sessao)
        ∈ stTwoOpen.rows ∧
    ({ id := 11, tipo := "Custos", descricao := "", user_id := "u",
       inicio := 5, fim := none, horas_trabalhadas := none } : Sessao).fim
        = none ∧
    ({ id := 11, tipo := "Custos", descricao := "", user_id := "u",
       inicio := 5, fim := none, horas_trabalhadas := none } : Sessao).user_id
        = "u" ∧
    ∀ r' ∈ stTwoOpen.rows, r'.fim = none → r'.user_id = "u" →
      r'.id ≤ ({ id := 11, tipo := "Custos", descricao := "", user_id := "u",
                 inicio := 5, fim := none,
                 horas_trabalhadas := none } : Sessao).id :=
  buscar_returns_newest_open stTwoOpen "u" _ (by rfl)

/-! ## Claim C5: the shutdown orphan sweep -/

theorem closeRow_id (i : Nat) (now : ℤ) (h : Option ℚ) (r : Sessao) :
    (closeRow i now h r).id = r.id := by
  simp only [closeRow]
  split <;> rfl

theorem finalizar_ok_of_present (st : Store) (i : Nat) (now : ℤ)
    (h : ∃ r ∈ st.rows, r.id = i) :
    ∃ hor, finalizar_atividade st i now true true =
      .ok { st with rows := (st.rows.map (closeRow i now hor)) } := by
  obtain ⟨r, hr, hri⟩ := h
  have hsome : (st.rows.find? (fun r => r.id = i)).isSome :=
    List.find?_isSome.mpr ⟨r, hr, by simp [hri]⟩
  obtain ⟨r0, hr0⟩ := Option.isSome_iff_exists.mp hsome
  exact ⟨calcular_horas_trabalhadas r0.inicio (some now),
    by simp [finalizar_atividade, hr0]⟩

theorem finalizar_fails (st : Store) (i : Nat) (now : ℤ) (u : Bool) :
    finalizar_atividade st i now false u = .error () := rfl

theorem closeRow_present (st : Store) (i : Nat) (now : ℤ) (hor : Option ℚ)
    (j : Nat) (h : ∃ r ∈ st.rows, r.id = j) :
    ∃ r ∈ st.rows.map (closeRow i now hor), r.id = j := by
  obtain ⟨r, hr, hrj⟩ := h
  exact ⟨closeRow i now hor r, List.mem_map_of_mem _ hr,
    (closeRow_id i now hor r).trans hrj⟩

theorem closeRow_closes (i : Nat) (now : ℤ) (hor : Option ℚ) (x : Sessao)
    (l : List Sessao) (hx : x ∈ l.map (closeRow i now hor)) (hxi : x.id = i) :
    x.fim = some now := by
  obtain ⟨r, _, rfl⟩ := List.mem_map.mp hx
  simp only [closeRow] at hxi ⊢
  split at hxi
  · simp only [closeRow, if_pos (by assumption)]
  · rename_i hne
    exact absurd hxi hne

theorem sweepLoop_count (now : ℤ) (cf : Nat → Bool) :
    ∀ ids : List Nat, ∀ st : Store, ∀ acc : Nat,
    (∀ i ∈ ids, ∃ r ∈ st.rows, r.id = i) →
    (sweepLoop now cf st acc ids).2 =
      acc + (ids.filter (fun i => !cf i)).length := by
  intro ids
  induction ids with
  | nil => intro st acc _; simp [sweepLoop]
  | cons i rest ih =>
    intro st acc hpres
    by_cases hcf : cf i = true
    · have : sweepLoop now cf st acc (i :: rest) = sweepLoop now cf st acc rest := by
        simp [sweepLoop, hcf, finalizar_fails]
      rw [this, ih st acc (fun j hj => hpres j (by simp [hj]))]
      simp [List.filter_cons, hcf]
    · rw [Bool.not_eq_true] at hcf
      obtain ⟨hor, hok⟩ := finalizar_ok_of_present st i now (hpres i (by simp))
      have hstep : sweepLoop now cf st acc (i :: rest) =
          sweepLoop now cf
            { st with rows := (st.rows.map (closeRow i now hor)) }
            (acc + 1) rest := by
        simp [sweepLoop, hcf, hok]
      rw [hstep, ih _ (acc + 1) (fun j hj =>
        closeRow_present st i now hor j (hpres j (by simp [hj])))]
      simp [List.filter_cons, hcf]
      omega

theorem sweepLoop_no_reopen (now : ℤ) (cf : Nat → Bool) :
    ∀ ids : List Nat, ∀ st : Store, ∀ acc : Nat, ∀ x : Sessao,
    x ∈ (sweepLoop now cf st acc ids).1.rows → x.fim = none →
    ∃ r ∈ st.rows, r.id = x.id ∧ r.fim = none := by
  intro ids
  induction ids with
  | nil => intro st acc x hx _; exact ⟨x, hx, rfl, by assumption⟩
  | cons i rest ih =>
    intro st acc x hx hopen
    by_cases hcf : cf i = true
    · rw [show sweepLoop now cf st acc (i :: rest) = sweepLoop now cf st acc rest
        from by simp [sweepLoop, hcf, finalizar_fails]] at hx
      exact ih st acc x hx hopen
    · rw [Bool.not_eq_true] at hcf
      rcases hfin : finalizar_atividade st i now true true with _ | st'
      · rw [show sweepLoop now cf st acc (i :: rest) = sweepLoop now cf st acc rest
          from by simp [sweepLoop, hcf, hfin]] at hx
        exact ih st acc x hx hopen
      · rw [show sweepLoop now cf st acc (i :: rest) =
            sweepLoop now cf st' (acc + 1) rest
          from by simp [sweepLoop, hcf, hfin]] at hx
        obtain ⟨r, hr, hrid, hrfim⟩ := ih st' (acc + 1) x hx hopen
        have hrows : st'.rows = st.rows.map
            (closeRow i now (calcular_horas_trabalhadas
              (match st.rows.find? (fun r => r.id = i) with
               | some r0 => r0.inicio
               | none => 0) (some now))) := by
          rcases hfind : st.rows.find? (fun r => r.id = i) with _ | r0
          · rw [show finalizar_atividade st i now true true = .error ()
              from by simp [finalizar_atividade, hfind]] at hfin
            cases hfin
          · rw [show finalizar_atividade st i now true true =
                .ok { st with rows := (st.rows.map (closeRow i now
                  (calcular_horas_trabalhadas r0.inicio (some now)))) }
              from by simp [finalizar_atividade, hfind]] at hfin
            cases hfin
            simp [hfind]
        rw [hrows] at hr
        obtain ⟨r1, hr1, rfl⟩ := List.mem_map.mp hr
        refine ⟨r1, hr1, ?_, ?_⟩
        · rw [← closeRow_id i now _ r1, hrid]
        · simp only [closeRow] at hrfim
          split at hrfim
          · cases hrfim
          · exact hrfim

theorem sweepLoop_closes (now : ℤ) (cf : Nat → Bool) :
    ∀ ids : List Nat, ∀ st : Store, ∀ acc : Nat,
    (∀ j ∈ ids, ∃ r ∈ st.rows, r.id = j) →
    ∀ x ∈ (sweepLoop now cf st acc ids).1.rows,
    x.fim = none → cf x.id = true ∨ x.id ∉ ids := by
  intro ids
  induction ids with
  | nil => intro st acc _ x _ _; simp
  | cons i rest ih =>
    intro st acc hpres x hx hopen
    by_cases hcf : cf i = true
    · rw [show sweepLoop now cf st acc (i :: rest) = sweepLoop now cf st acc rest
        from by simp [sweepLoop, hcf, finalizar_fails]] at hx
      rcases ih st acc (fun j hj => hpres j (by simp [hj])) x hx hopen with hl | hr
      · exact Or.inl hl
      · by_cases hxi : x.id = i
        · exact Or.inl (hxi ▸ hcf)
        · exact Or.inr (by simp [hxi, hr])
    · rw [Bool.not_eq_true] at hcf
      obtain ⟨hor, hok⟩ := finalizar_ok_of_present st i now (hpres i (by simp))
      rw [show sweepLoop now cf st acc (i :: rest) =
          sweepLoop now cf
            { st with rows := (st.rows.map (closeRow i now hor)) }
            (acc + 1) rest
        from by simp [sweepLoop, hcf, hok]] at hx
      have hpres' : ∀ j ∈ rest,
          ∃ r ∈ ({ st with rows := (st.rows.map (closeRow i now hor)) } : Store).rows,
            r.id = j :=
        fun j hj => closeRow_present st i now hor j (hpres j (by simp [hj]))
      rcases ih _ (acc + 1) hpres' x hx hopen with hl | hr
      · exact Or.inl hl
      · by_cases hxi : x.id = i
        · exfalso
          obtain ⟨r, hrmem, hrid, hrfim⟩ :=
            sweepLoop_no_reopen now cf rest _ (acc + 1) x hx hopen
          have : r.fim = some now :=
            closeRow_closes i now hor r st.rows hrmem (hrid.trans hxi)
          rw [this] at hrfim
          cases hrfim
        · exact Or.inr (by simp [hxi, hr])

/-- C5: for every store state and every pattern of per-session close-call
failures, the shutdown orphan sweep returns exactly the number of open
sessions whose close call succeeds (continuing past each failure), and
after the sweep every session that is still open either had a failing
close call or was not among the open sessions the sweep set out to
close. -/
theorem finalizar_em_andamento_success_count (st : Store) (now : ℤ)
    (cf : Nat → Bool) :
    (finalizar_atividades_em_andamento st now true true cf).2 =
      (((st.rows.filter (fun r => r.fim.isNone)).map (fun r => r.id)).filter
        (fun i => !cf i)).length ∧
    ∀ x ∈ (finalizar_atividades_em_andamento st now true true cf).1.rows,
      x.fim = none → cf x.id = true ∨
        x.id ∉ (st.rows.filter (fun r => r.fim.isNone)).map (fun r => r.id) := by
  have hred : finalizar_atividades_em_andamento st now true true cf =
      sweepLoop now cf st 0
        ((st.rows.filter (fun r => r.fim.isNone)).map (fun r => r.id)) := rfl
  have hpres : ∀ i ∈ (st.rows.filter (fun r => r.fim.isNone)).map (fun r => r.id),
      ∃ r ∈ st.rows, r.id = i := by
    intro i hi
    obtain ⟨r, hr, rfl⟩ := List.mem_map.mp hi
    exact ⟨r, (List.mem_filter.mp hr).1, rfl⟩
  constructor
  · rw [hred, sweepLoop_count now cf _ st 0 hpres]
    omega
  · intro x hx hopen
    rw [hred] at hx
    exact sweepLoop_closes now cf _ st 0 hpres x hx hopen

/-! ## Claim C3: checkpoint dedup in the scheduler tick -/

theorem lastDateGet_lastDateSet (scr : MainScreen) (hhmm : String)
    (today : Int) (h : hhmm = "11:28" ∨ hhmm = "16:10") :
    lastDateGet (lastDateSet scr hhmm today) hhmm = some today := by
  rcases h with rfl | rfl <;> simp [lastDateGet, lastDateSet]

theorem lastDateGet_resetAfterFinalize (scr : MainScreen) (hhmm : String) :
    lastDateGet (resetAfterFinalize scr) hhmm = lastDateGet scr hhmm := rfl

/-- C3: a matching scheduler tick marks the checkpoint's last-fired date
as today unconditionally — whatever the current activity is and whether
or not the finalization store calls succeed — and therefore a second tick
at the same checkpoint time on the same date never dispatches
finalization again. -/
theorem tick_dedup (scr : MainScreen) (st : Store) (hhmm : String)
    (today : Int) (now1 now2 : ℤ) (s1 u1 s2 u2 : Bool)
    (h : hhmm = "11:28" ∨ hhmm = "16:10") :
    lastDateGet (auto_finalize_check scr st hhmm today now1 s1 u1).scr hhmm =
      some today ∧
    (auto_finalize_check (auto_finalize_check scr st hhmm today now1 s1 u1).scr
        (auto_finalize_check scr st hhmm today now1 s1 u1).store
        hhmm today now2 s2 u2).dispatched = false := by
  have h1 : lastDateGet (auto_finalize_check scr st hhmm today now1 s1 u1).scr
      hhmm = some today := by
    by_cases hg : (hhmm = "11:28" ∨ hhmm = "16:10") ∧
        lastDateGet scr hhmm ≠ some today
    · simp only [auto_finalize_check, if_pos hg]
      cases hc : (lastDateSet scr hhmm today).current_activity_id with
      | none => simp [lastDateGet_lastDateSet scr hhmm today h]
      | some i =>
        by_cases hi : i = 0
        · simp [hc, hi, lastDateGet_lastDateSet scr hhmm today h]
        · cases hf : finalizar_atividade st i now1 s1 u1 with
          | error e =>
            simp [hc, hi, hf, lastDateGet_lastDateSet scr hhmm today h]
          | ok st' =>
            simp [hc, hi, hf, lastDateGet_resetAfterFinalize,
              lastDateGet_lastDateSet scr hhmm today h]
    · simp only [auto_finalize_check, if_neg hg]
      rw [not_and_or] at hg
      rcases hg with hg | hg
      · exact absurd h hg
      · rw [not_not] at hg
        exact hg
  refine ⟨h1, ?_⟩
  generalize auto_finalize_check scr st hhmm today now1 s1 u1 = r1 at h1 ⊢
  have hcond : ¬ ((hhmm = "11:28" ∨ hhmm = "16:10") ∧
      lastDateGet r1.scr hhmm ≠ some today) := fun hc => hc.2 h1
  simp only [auto_finalize_check, if_neg hcond]

theorem tick_dedup_witness :
    lastDateGet (auto_finalize_check MainScreen.init stTwoOpen "11:28" 20000
      43200 true true).scr "11:28" = some 20000 ∧
    (auto_finalize_check (auto_finalize_check MainScreen.init stTwoOpen "11:28"
        20000 43200 true true).scr
      (auto_finalize_check MainScreen.init stTwoOpen "11:28" 20000
        43200 true true).store
      "11:28" 20000 43230 true true).dispatched = false :=
  tick_dedup MainScreen.init stTwoOpen "11:28" 20000 43200 43230
    true true true true (Or.inl rfl)

/-! ## Claim C6: failed create leaves the state machine untouched -/

/-- C6: when the store create call errors during start, `acao_iniciar`
reports the failure and changes nothing: the screen state (in particular
`current_activity_id` and the in-progress presentation state) and the
store are exactly as before, so an idle state machine remains idle with
no partial state. -/
theorem acao_iniciar_store_error (scr : MainScreen) (st : Store)
    (user : String) (now : ℤ) :
    (acao_iniciar scr st user now false).scr = scr ∧
    (acao_iniciar scr st user now false).store = st ∧
    (acao_iniciar scr st user now false).error ≠ none := by
  cases hsel : scr.selected_activity_type with
  | none => simp [acao_iniciar, hsel]
  | some tipo =>
    by_cases ht : tipo = ""
    · simp [acao_iniciar, hsel, ht]
    · simp [acao_iniciar, hsel, ht, iniciar_nova_atividade]

/-! ## Claim C2: stop while idle, start while active -/

/-- C2 counterexample: calling `acao_iniciar` while a session is already
open is not rejected — the guard only checks the selected type.  With the
insert succeeding it raises no error, overwrites `current_activity_id`
with a fresh id and adds a second row to the store. -/
theorem acao_iniciar_while_active_cex :
    (acao_iniciar scrActive stActive "u" 50 true).error = none ∧
    (acao_iniciar scrActive stActive "u" 50 true).scr.current_activity_id =
      some 2 ∧
    (acao_iniciar scrActive stActive "u" 50 true).store.rows.length = 2 := by
  refine ⟨?_, ?_, ?_⟩ <;> decide

/-- C2 (amended): calling stop while no session is open is rejected with
an error popup and leaves screen and store completely unchanged; calling
start is rejected the same way exactly when no activity type is selected
(which is not the case while a session is active, so start while active
proceeds — see the counterexample). -/
theorem invalid_state_rejected (scr1 scr2 : MainScreen) (st1 st2 : Store)
    (now : ℤ) (selectOk updateOk insertOk : Bool) (user : String)
    (h1 : scr1.current_activity_id = none)
    (h2 : scr2.selected_activity_type = none) :
    acao_finalizar scr1 st1 now selectOk updateOk =
      { scr := scr1, store := st1,
        error := some "Não há atividade em andamento para finalizar.",
        success := none } ∧
    acao_iniciar scr2 st2 user now insertOk =
      { scr := scr2, store := st2,
        error := some "Por favor, selecione um tipo de atividade.",
        success := none } := by
  constructor
  · simp [acao_finalizar, h1]
  · simp [acao_iniciar, h2]

theorem invalid_state_rejected_witness :
    acao_finalizar MainScreen.init stActive 99 true true =
      { scr := MainScreen.init, store := stActive,
        error := some "Não há atividade em andamento para finalizar.",
        success := none } ∧
    acao_iniciar MainScreen.init stActive "u" 99 true =
      { scr := MainScreen.init, store := stActive,
        error := some "Por favor, selecione um tipo de atividade.",
        success := none } :=
  invalid_state_rejected MainScreen.init MainScreen.init stActive stActive
    99 true true true "u" rfl rfl

/-! ## Claim C1: at most one open session per instance -/

/-- C1 counterexample: `acao_iniciar` has no guard on
`current_activity_id`, so calling it twice (possible as a direct method
call because only the UI's disabled button prevents it) leaves two
sessions created by the instance with `fim` absent. -/
theorem double_start_two_open_cex :
    (createdOpen (execOps "u" (MainScreen.init, stEmpty) opsDouble)).length = 2 := by
  decide

theorem lastDateSet_fields (scr : MainScreen) (hhmm : String) (today : Int) :
    (lastDateSet scr hhmm today).created = scr.created ∧
    (lastDateSet scr hhmm today).current_activity_id = scr.current_activity_id ∧
    (lastDateSet scr hhmm today).start_disabled = scr.start_disabled := by
  unfold lastDateSet
  split
  · exact ⟨rfl, rfl, rfl⟩
  · split
    · exact ⟨rfl, rfl, rfl⟩
    · exact ⟨rfl, rfl, rfl⟩

theorem screenInv_congr (scr scr' : MainScreen) (st : Store)
    (hc : scr'.created = scr.created)
    (hcur : scr'.current_activity_id = scr.current_activity_id)
    (hsd : scr'.start_disabled = scr.start_disabled)
    (h : ScreenInv (scr, st)) : ScreenInv (scr', st) := by
  obtain ⟨hwf, hinv⟩ := h
  refine ⟨hwf, fun r hr hcr hop => ?_⟩
  rw [hc] at hcr
  rw [hcur, hsd]
  exact hinv r hr hcr hop

theorem map_id_closeRow (l : List Sessao) (i : Nat) (now : ℤ) (hor : Option ℚ) :
    (l.map (closeRow i now hor)).map (fun r => r.id) = l.map (fun r => r.id) := by
  rw [List.map_map]
  exact List.map_congr_left (fun r _ => closeRow_id i now hor r)

theorem closeRow_of_ne (i : Nat) (now : ℤ) (hor : Option ℚ) (r : Sessao)
    (h : r.id ≠ i) : closeRow i now hor r = r := by
  simp [closeRow, h]

theorem finalizar_rows_shape (st : Store) (i : Nat) (now : ℤ) (so uo : Bool)
    (st' : Store) (h : finalizar_atividade st i now so uo = .ok st') :
    ∃ hor, st'.rows = st.rows.map (closeRow i now hor) ∧
      st'.nextId = st.nextId := by
  unfold finalizar_atividade at h
  split at h
  · split at h
    · cases h
    · split at h
      · cases h
        exact ⟨_, rfl, rfl⟩
      · cases h
  · cases h

theorem screenInv_after_close (scr scr' : MainScreen) (st st' : Store)
    (i : Nat) (now : ℤ) (hor : Option ℚ)
    (hrows : st'.rows = st.rows.map (closeRow i now hor))
    (hnext : st'.nextId = st.nextId)
    (hcur : scr.current_activity_id = some i)
    (hc : scr'.created = scr.created)
    (h : ScreenInv (scr, st)) : ScreenInv (scr', st') := by
  obtain ⟨⟨hnd, hbound⟩, hinv⟩ := h
  dsimp only at hnd hbound hinv
  refine ⟨⟨?_, ?_⟩, ?_⟩
  · rw [hrows, map_id_closeRow]
    exact hnd
  · intro r hr
    rw [hrows] at hr
    obtain ⟨r1, hr1, rfl⟩ := List.mem_map.mp hr
    rw [hnext, closeRow_id]
    exact hbound r1 hr1
  · intro r hr hcr hop
    exfalso
    rw [hrows] at hr
    obtain ⟨r1, hr1, rfl⟩ := List.mem_map.mp hr
    by_cases hid : r1.id = i
    · rw [show closeRow i now hor r1 =
          { r1 with fim := some now, horas_trabalhadas := hor }
        from by simp [closeRow, hid]] at hop
      cases hop
    · rw [closeRow_of_ne i now hor r1 hid] at hcr hop
      rw [hc] at hcr
      have := (hinv r1 hr1 hcr hop).1
      rw [hcur] at this
      injection this with h2
      exact hid h2.symm

theorem screenInv_after_insert (scr scr' : MainScreen) (st st' : Store)
    (row : Sessao) (hrowid : row.id = st.nextId)
    (hrows : st'.rows = st.rows ++ [row])
    (hnext : st'.nextId = st.nextId + 1)
    (hg : scr.start_disabled = false)
    (hc : scr'.created = scr.created ++ [st.nextId])
    (hcur : scr'.current_activity_id = some st.nextId)
    (hsd : scr'.start_disabled = true)
    (h : ScreenInv (scr, st)) : ScreenInv (scr', st') := by
  obtain ⟨⟨hnd, hbound⟩, hinv⟩ := h
  dsimp only at hnd hbound hinv
  refine ⟨⟨?_, ?_⟩, ?_⟩
  · rw [hrows, List.map_append]
    rw [List.nodup_append]
    refine ⟨hnd, by simp, ?_⟩
    intro x hx hx2
    obtain ⟨r1, hr1, rfl⟩ := List.mem_map.mp hx
    have h1 := hbound r1 hr1
    simp only [List.map_cons, List.map_nil, List.mem_singleton] at hx2
    rw [hrowid] at hx2
    omega
  · intro r hr
    rw [hrows] at hr
    rw [hnext]
    rcases List.mem_append.mp hr with hr | hr
    · have := hbound r hr
      omega
    · rw [List.mem_singleton.mp hr, hrowid]
      omega
  · intro r hr hcr hop
    rw [hrows] at hr
    rcases List.mem_append.mp hr with hr | hr
    · rw [hc] at hcr
      rcases List.mem_append.mp hcr with hcr | hcr
      · have := (hinv r hr hcr hop).2
        rw [hg] at this
        cases this
      · have := hbound r hr
        rw [List.mem_singleton.mp hcr] at this
        omega
    · rw [List.mem_singleton.mp hr, hrowid]
      exact ⟨hcur, hsd⟩

theorem acao_iniciar_success_shape (scr : MainScreen) (st : Store)
    (user : String) (now : ℤ) (tipo : String)
    (hsel : scr.selected_activity_type = some tipo) (ht : tipo ≠ "") :
    ∃ row : Sessao, row.id = st.nextId ∧
      (acao_iniciar scr st user now true).store.rows = st.rows ++ [row] ∧
      (acao_iniciar scr st user now true).store.nextId = st.nextId + 1 ∧
      (acao_iniciar scr st user now true).scr.created =
        scr.created ++ [st.nextId] ∧
      (acao_iniciar scr st user now true).scr.current_activity_id =
        some st.nextId ∧
      (acao_iniciar scr st user now true).scr.start_disabled = true := by
  refine ⟨{ id := st.nextId, tipo := tipo, descricao := scr.descricao_text,
            user_id := user, inicio := now, fim := none,
            horas_trabalhadas := none }, rfl, ?_⟩
  simp [acao_iniciar, hsel, ht, iniciar_nova_atividade, show_active_box,
    set_state_em_andamento]

theorem screenInv_execOp (user : String) (s : MainScreen × Store) (op : Op)
    (h : ScreenInv s)
    (hg : ∀ ok now, op = Op.start ok now → s.1.start_disabled = false) :
    ScreenInv (execOp user s op) := by
  obtain ⟨scr, st⟩ := s
  cases op with
  | select t =>
    exact screenInv_congr scr _ st rfl rfl rfl h
  | start ok now =>
    have hgd : scr.start_disabled = false := hg ok now rfl
    cases hsel : scr.selected_activity_type with
    | none =>
      simp only [execOp, acao_iniciar, hsel]
      exact h
    | some tipo =>
      by_cases ht : tipo = ""
      · simp only [execOp, acao_iniciar, hsel, if_pos ht]
        exact h
      · cases ok with
        | false =>
          simp only [execOp, acao_iniciar, hsel, if_neg ht,
            iniciar_nova_atividade, Bool.false_eq_true, if_false]
          exact h
        | true =>
          obtain ⟨row, hrid, hrows, hnext, hcr, hcur, hsd⟩ :=
            acao_iniciar_success_shape scr st user now tipo hsel ht
          exact screenInv_after_insert scr _ st _ row hrid hrows hnext hgd
            hcr hcur hsd h
  | stop so uo now =>
    cases hcur : scr.current_activity_id with
    | none =>
      simp only [execOp, acao_finalizar, hcur]
      exact h
    | some i =>
      by_cases hi : i = 0
      · simp only [execOp, acao_finalizar, hcur, if_pos hi]
        exact h
      · rcases hf : finalizar_atividade st i now so uo with e | st'
        · simp only [execOp, acao_finalizar, hcur, if_neg hi, hf]
          exact h
        · simp only [execOp, acao_finalizar, hcur, if_neg hi, hf]
          obtain ⟨hor, hrows, hnext⟩ := finalizar_rows_shape st i now so uo st' hf
          exact screenInv_after_close scr _ st st' i now hor hrows hnext
            hcur rfl h
  | tick hhmm today now so uo =>
    by_cases hcond : (hhmm = "11:28" ∨ hhmm = "16:10") ∧
        lastDateGet scr hhmm ≠ some today
    · obtain ⟨hc1, hc2, hc3⟩ := lastDateSet_fields scr hhmm today
      have hbase : ScreenInv (lastDateSet scr hhmm today, st) :=
        screenInv_congr scr _ st hc1 hc2 hc3 h
      simp only [execOp, auto_finalize_check, if_pos hcond]
      cases hcur : (lastDateSet scr hhmm today).current_activity_id with
      | none =>
        simp only [hcur]
        exact hbase
      | some i =>
        by_cases hi : i = 0
        · simp only [hcur, if_pos hi]
          exact hbase
        · rcases hf : finalizar_atividade st i now so uo with e | st'
          · simp only [hcur, if_neg hi, hf]
            exact hbase
          · simp only [hcur, if_neg hi, hf]
            obtain ⟨hor, hrows, hnext⟩ :=
              finalizar_rows_shape st i now so uo st' hf
            exact screenInv_after_close (lastDateSet scr hhmm today) _ st st'
              i now hor hrows hnext hcur rfl hbase
    · simp only [execOp, auto_finalize_check, if_neg hcond]
      exact h

theorem screenInv_execOps (user : String) :
    ∀ ops : List Op, ∀ s : MainScreen × Store,
    ScreenInv s → gatedOps user s ops = true →
    ScreenInv (execOps user s ops) := by
  intro ops
  induction ops with
  | nil => intro s h _; exact h
  | cons op rest ih =>
    intro s h hg
    simp only [gatedOps, Bool.and_eq_true] at hg
    refine ih (execOp user s op) (screenInv_execOp user s op h ?_) hg.2
    intro ok now hop
    subst hop
    simpa using hg.1

theorem createdOpen_length_le_one (s : MainScreen × Store)
    (h : ScreenInv s) : (createdOpen s).length ≤ 1 := by
  obtain ⟨⟨hnd, _⟩, hinv⟩ := h
  rcases hl : createdOpen s with _ | ⟨a, t⟩
  · simp
  · rcases ht : t with _ | ⟨b, t'⟩
    · simp
    · exfalso
      rw [ht] at hl
      have hsub : (a :: b :: t').Sublist s.2.rows := by
        rw [← hl]
        exact List.filter_sublist s.2.rows
      have hndf : ((a :: b :: t').map (fun r => r.id)).Nodup :=
        List.Nodup.sublist (hsub.map (fun r => r.id)) hnd
      have hmema : a ∈ createdOpen s := by rw [hl]; simp
      have hmemb : b ∈ createdOpen s := by rw [hl]; simp
      have hpa := List.mem_filter.mp hmema
      have hpb := List.mem_filter.mp hmemb
      have hpa2 : a.id ∈ s.1.created ∧ a.fim = none := by
        have := hpa.2
        rw [Bool.and_eq_true, Option.isNone_iff_eq_none] at this
        exact ⟨by simpa using this.1, this.2⟩
      have hpb2 : b.id ∈ s.1.created ∧ b.fim = none := by
        have := hpb.2
        rw [Bool.and_eq_true, Option.isNone_iff_eq_none] at this
        exact ⟨by simpa using this.1, this.2⟩
      have ha := (hinv a hpa.1 hpa2.1 hpa2.2).1
      have hb := (hinv b hpb.1 hpb2.1 hpb2.2).1
      have hab : a.id = b.id := by
        rw [ha] at hb
        injection hb
      simp only [List.map_cons, List.nodup_cons, List.mem_cons] at hndf
      exact hndf.1 (by simp [hab])

/-- C1 (amended): for every sequence of start, stop, auto-finalize-tick
and select operations against one MainScreen instance in which start is
only invoked while the start control is enabled (as the running UI
guarantees via `_set_state_em_andamento`), at most one session created by
that instance has its end time absent. -/
theorem at_most_one_open_session (user : String) (st0 : Store)
    (ops : List Op) (hwf : StoreWf st0)
    (hg : gatedOps user (MainScreen.init, st0) ops = true) :
    (createdOpen (execOps user (MainScreen.init, st0) ops)).length ≤ 1 := by
  refine createdOpen_length_le_one _ (screenInv_execOps user ops _ ⟨hwf, ?_⟩ hg)
  intro r _ hc
  simp [MainScreen.init] at hc

theorem at_most_one_open_session_witness :
    (createdOpen (execOps "u" (MainScreen.init, stEmpty) opsGated)).length ≤ 1 :=
  at_most_one_open_session "u" stEmpty opsGated
    (by simp [StoreWf, stEmpty]) (by decide)
